import Mathlib

/-!
Verification of mlpack LinearRegression
(src/mlpack/methods/linear_regression/linear_regression.cpp).

The predictors matrix is stored column-major, as in the source: entry
(i, j) is feature i of observation j, so a D-feature, N-observation data
set is a (Fin D) x (Fin N) matrix over the reals.  The fit constructor
inserts a row of ones at row 0, transposes, QR-factorises the result and
solves R * beta = Q^T * responses; predict runs two nested loops over an
arma rowvec, modelled here as a Lean list.
-/

open Matrix

namespace LinReg

/-- Row of ones built by ones.ones(n_cols) in the fit constructor. -/
def onesRow (N : ℕ) : Fin N → ℝ := fun _ => 1

/-- Model of predictors.insert_rows(0, r): the matrix whose row 0 is r and
whose row (k+1) is row k of the original matrix. -/
def insertRows0 {D N : ℕ} (r : Fin N → ℝ) (m : Matrix (Fin D) (Fin N) ℝ) :
    Matrix (Fin (D + 1)) (Fin N) ℝ :=
  Matrix.of fun i j => Fin.cases (r j) (fun k => m k j) i

/-- Model of predictors.shed_row(0): drop row 0, keeping rows 1..D. -/
def shedRow0 {D N : ℕ} (m : Matrix (Fin (D + 1)) (Fin N) ℝ) :
    Matrix (Fin D) (Fin N) ℝ :=
  Matrix.of fun i j => m i.succ j

/-- Model of arma::trans(predictors) after the intercept row was inserted:
the N x (D+1) augmented design matrix A whose QR factorisation the fit
constructor computes.  Column 0 of A is all ones. -/
def designMatrix {D N : ℕ} (predictors : Matrix (Fin D) (Fin N) ℝ) :
    Matrix (Fin N) (Fin (D + 1)) ℝ :=
  (insertRows0 (onesRow N) predictors)ᵀ

/-- The predictors matrix as the fit constructor leaves it on return:
the row of ones is inserted at row 0 and then shed again. -/
def fitPredictorsAfter {D N : ℕ} (predictors : Matrix (Fin D) (Fin N) ℝ) :
    Matrix (Fin D) (Fin N) ℝ :=
  shedRow0 (insertRows0 (onesRow N) predictors)

/-- Squared Euclidean norm of a real vector, the quantity minimised by the
least-squares solution. -/
def sqNorm {n : ℕ} (v : Fin n → ℝ) : ℝ := Matrix.dotProduct v v

theorem sqNorm_nonneg {n : ℕ} (v : Fin n → ℝ) : 0 ≤ sqNorm v := by
  unfold sqNorm Matrix.dotProduct
  exact Finset.sum_nonneg fun i _ => mul_self_nonneg (v i)

/-- C3: after the fit constructor returns, the predictors matrix passed to
it is identical to what it was before the call: the temporary intercept
row of ones is inserted and then removed, restoring the original shape and
contents; the model of the constructor has no other effect on its inputs. -/
theorem fit_restores_predictors {D N : ℕ}
    (predictors : Matrix (Fin D) (Fin N) ℝ) :
    fitPredictorsAfter predictors = predictors := by
  funext i j
  simp [fitPredictorsAfter, shedRow0, insertRows0]

theorem residual_orthogonal {D N : ℕ}
    (A : Matrix (Fin N) (Fin (D + 1)) ℝ) (responses : Fin N → ℝ)
    (Q : Matrix (Fin N) (Fin (D + 1)) ℝ)
    (R : Matrix (Fin (D + 1)) (Fin (D + 1)) ℝ)
    (hQR : A = Q * R) (hQ : Qᵀ * Q = 1)
    (beta : Fin (D + 1) → ℝ)
    (hbeta : R.mulVec beta = Qᵀ.mulVec responses) :
    Aᵀ.mulVec (responses - A.mulVec beta) = 0 := by
  have hAy : Aᵀ.mulVec responses = (Rᵀ * R).mulVec beta := by
    rw [hQR, Matrix.transpose_mul, ← Matrix.mulVec_mulVec, ← hbeta,
      Matrix.mulVec_mulVec]
  have hAA : Aᵀ * A = Rᵀ * R := by
    rw [hQR, Matrix.transpose_mul, Matrix.mul_assoc, ← Matrix.mul_assoc Qᵀ Q R,
      hQ, Matrix.one_mul]
  rw [Matrix.mulVec_sub, hAy, Matrix.mulVec_mulVec, hAA, sub_self]

theorem sqNorm_add_right {n : ℕ} (r w : Fin n → ℝ)
    (horth : Matrix.dotProduct r w = 0) :
    sqNorm (r + w) = sqNorm r + sqNorm w := by
  unfold sqNorm
  rw [Matrix.dotProduct_add, Matrix.add_dotProduct, Matrix.add_dotProduct,
    Matrix.dotProduct_comm w r, horth]
  ring

/-- C1: the fit constructor augments every observation with a constant
feature of value 1 (the design matrix), factorises A = Q * R and solves
R * beta = Q^T * responses; whenever the factorisation has the thin-QR
properties and A has full column rank, the resulting beta minimises the
squared norm of (responses - A * beta), and it is the unique minimiser. -/
theorem fit_computes_least_squares {D N : ℕ}
    (predictors : Matrix (Fin D) (Fin N) ℝ) (responses : Fin N → ℝ)
    (Q : Matrix (Fin N) (Fin (D + 1)) ℝ)
    (R : Matrix (Fin (D + 1)) (Fin (D + 1)) ℝ)
    (hQR : designMatrix predictors = Q * R) (hQ : Qᵀ * Q = 1)
    (hrank : ∀ v : Fin (D + 1) → ℝ,
      (designMatrix predictors).mulVec v = 0 → v = 0)
    (beta : Fin (D + 1) → ℝ)
    (hbeta : R.mulVec beta = Qᵀ.mulVec responses)
    (x : Fin (D + 1) → ℝ) :
    sqNorm (responses - (designMatrix predictors).mulVec beta) ≤
      sqNorm (responses - (designMatrix predictors).mulVec x) ∧
    (sqNorm (responses - (designMatrix predictors).mulVec x) =
      sqNorm (responses - (designMatrix predictors).mulVec beta) → x = beta) := by
  set A := designMatrix predictors with hA
  set r := responses - A.mulVec beta with hr
  set w := A.mulVec (beta - x) with hw
  have hsplit : responses - A.mulVec x = r + w := by
    rw [hr, hw, Matrix.mulVec_sub]
    abel
  have horthvec : Aᵀ.mulVec r = 0 :=
    residual_orthogonal A responses Q R hQR hQ beta hbeta
  have horth : Matrix.dotProduct r w = 0 := by
    rw [hw, Matrix.dotProduct_mulVec, ← Matrix.mulVec_transpose, horthvec,
      Matrix.zero_dotProduct]
  have hsum : sqNorm (responses - A.mulVec x) = sqNorm r + sqNorm w := by
    rw [hsplit, sqNorm_add_right r w horth]
  constructor
  · rw [hsum]
    exact le_add_of_nonneg_right (sqNorm_nonneg w)
  · intro heq
    have hw0 : sqNorm w = 0 := by
      rw [hsum] at heq
      linarith
    have hwz : w = 0 := Matrix.dotProduct_self_eq_zero.mp hw0
    have hbx : beta - x = 0 := hrank _ hwz
    exact (sub_eq_zero.mp hbx).symm

/-- Concrete zero-feature, one-observation predictors matrix. -/
def pred0 : Matrix (Fin 0) (Fin 1) ℝ := Matrix.of fun i _ => Fin.elim0 i

/-- Witness for C1 at a concrete input: one observation, no features,
response 2, with Q = R = identity and beta the constant 2. -/
theorem fit_computes_least_squares_witness :
    sqNorm ((fun _ => (2 : ℝ)) - (designMatrix pred0).mulVec fun _ => (2 : ℝ)) ≤
      sqNorm ((fun _ => (2 : ℝ)) - (designMatrix pred0).mulVec fun _ => (3 : ℝ)) :=
  (fit_computes_least_squares pred0 (fun _ => (2 : ℝ)) 1 1
    (by
      rw [Matrix.one_mul]
      ext i j
      fin_cases i
      fin_cases j
      simp [designMatrix, insertRows0, onesRow])
    (by simp)
    (by
      intro v hv
      funext k
      fin_cases k
      have h0 := congrFun hv 0
      simpa [designMatrix, insertRows0, onesRow, Matrix.mulVec,
        Matrix.dotProduct] using h0)
    (fun _ => (2 : ℝ))
    (by simp)
    (fun _ => (3 : ℝ))).1

/-- Model of the inner j-loop of predict: walking down the predictions
vector, the element at offset j is incremented by c j.  Instantiating c
gives both the initial `predictions += parameters(0)` pass and the
`predictions(j) += parameters(i) * points(i - 1, j)` pass for a fixed i. -/
def innerLoop (c : ℕ → ℝ) : ℕ → List ℝ → List ℝ
  | _, [] => []
  | j, v :: rest => (v + c j) :: innerLoop c (j + 1) rest

/-- Model of the body of predict: predictions.zeros(n_cols) resizes the
caller-supplied vector to n_cols and zeroes it (discarding predictionsIn
entirely), predictions += parameters(0) adds the intercept, then the outer
loop runs i = 1 .. n_rows adding parameters(i) * points(i-1, j) to each
entry j. -/
def predictRun (params : ℕ → ℝ) (points : ℕ → ℕ → ℝ) (nRows nCols : ℕ)
    (predictionsIn : List ℝ) : List ℝ :=
  (List.range nRows).foldl
    (fun predictions k =>
      innerLoop (fun j => params (k + 1) * points k j) 0 predictions)
    (innerLoop (fun _ => params 0) 0 (List.replicate nCols 0))

theorem innerLoop_length (c : ℕ → ℝ) :
    ∀ (j0 : ℕ) (l : List ℝ), (innerLoop c j0 l).length = l.length := by
  intro j0 l
  induction l generalizing j0 with
  | nil => rfl
  | cons v rest ih => simp [innerLoop, ih]

theorem innerLoop_getD (c : ℕ → ℝ) :
    ∀ (j0 j : ℕ) (l : List ℝ), j < l.length →
      (innerLoop c j0 l).getD j 0 = l.getD j 0 + c (j0 + j) := by
  intro j0 j l
  induction l generalizing j0 j with
  | nil => intro h; cases h
  | cons v rest ih =>
    intro h
    cases j with
    | zero => simp [innerLoop]
    | succ j =>
      have hj : j < rest.length := by simpa using h
      simp only [innerLoop, List.getD_cons_succ]
      rw [ih (j0 + 1) j hj]
      ring_nf

theorem predictRun_succ (params : ℕ → ℝ) (points : ℕ → ℕ → ℝ)
    (n nCols : ℕ) (predictionsIn : List ℝ) :
    predictRun params points (n + 1) nCols predictionsIn =
      innerLoop (fun j => params (n + 1) * points n j) 0
        (predictRun params points n nCols predictionsIn) := by
  unfold predictRun
  rw [List.range_succ, List.foldl_append]
  rfl

theorem predictRun_length (params : ℕ → ℝ) (points : ℕ → ℕ → ℝ)
    (nRows nCols : ℕ) (predictionsIn : List ℝ) :
    (predictRun params points nRows nCols predictionsIn).length = nCols := by
  induction nRows with
  | zero =>
    simp [predictRun, innerLoop_length]
  | succ n ih =>
    rw [predictRun_succ, innerLoop_length]
    exact ih

/-- C2: predict produces exactly n_cols values, in input order, and the
j-th value is parameters(0) plus the sum over the feature dimensions of
parameters(i + 1) times feature i of observation j. -/
theorem predict_values (params : ℕ → ℝ) (points : ℕ → ℕ → ℝ)
    (nRows nCols : ℕ) (predictionsIn : List ℝ) :
    (predictRun params points nRows nCols predictionsIn).length = nCols ∧
    ∀ j : ℕ, j < nCols →
      (predictRun params points nRows nCols predictionsIn).getD j 0 =
        params 0 + ∑ i ∈ Finset.range nRows, params (i + 1) * points i j := by
  refine ⟨predictRun_length params points nRows nCols predictionsIn, ?_⟩
  intro j hj
  induction nRows with
  | zero =>
    simp only [predictRun, List.range_zero, List.foldl_nil]
    rw [innerLoop_getD (fun _ => params 0) 0 j (List.replicate nCols 0)
      (by simpa using hj)]
    simp
  | succ n ih =>
    rw [predictRun_succ,
      innerLoop_getD _ 0 j _
        (by rw [predictRun_length]; exact hj),
      ih, Finset.sum_range_succ]
    simp only [Nat.zero_add]
    ring

/-- Witness for C2 at a concrete input: constant parameters 2, constant
features 3, one feature dimension, one observation. -/
theorem predict_values_witness :
    (predictRun (fun _ => (2 : ℝ)) (fun _ _ => (3 : ℝ)) 1 1 []).getD 0 0 =
      2 + ∑ i ∈ Finset.range 1, (2 : ℝ) * 3 :=
  (predict_values (fun _ => (2 : ℝ)) (fun _ _ => (3 : ℝ)) 1 1 []).2 0
    (by decide)

/-- C10: predict resizes the caller-supplied predictions vector to the
number of observations and overwrites it entirely, so the result depends
only on the parameters and the points, never on the prior length or
contents of the predictions vector. -/
theorem predict_overwrites_predictions (params : ℕ → ℝ)
    (points : ℕ → ℕ → ℝ) (nRows nCols : ℕ) (prior1 prior2 : List ℝ) :
    predictRun params points nRows nCols prior1 =
      predictRun params points nRows nCols prior2 ∧
    (predictRun params points nRows nCols prior1).length = nCols :=
  ⟨rfl, predictRun_length params points nRows nCols prior1⟩

/-- Modulus of the size_t arithmetic in the assertion of predict. -/
def sizeTMod : ℕ := 2 ^ 64

/-- Model of predict including its runtime assertion
assert(n_rows == parameters.n_rows - 1): the subtraction is size_t
arithmetic, so parameters.n_rows - 1 wraps modulo 2^64 when the parameter
vector is empty.  An assertion failure aborts the process, modelled as
none; otherwise the loops of predictRun run on the parameter entries. -/
def predictChecked (params : List ℝ) (points : ℕ → ℕ → ℝ)
    (nRows nCols : ℕ) (predictionsIn : List ℝ) : Option (List ℝ) :=
  if nRows % sizeTMod = (params.length + sizeTMod - 1) % sizeTMod then
    some (predictRun (fun i => params.getD i 0) points nRows nCols
      predictionsIn)
  else none

/-- C4: for size_t-representable dimensions and a nonempty parameter
vector, predict aborts exactly when the feature count differs from the
parameter vector length minus one, and when they match it does not abort
and runs the prediction loops. -/
theorem predict_assert_iff (params : List ℝ) (points : ℕ → ℕ → ℝ)
    (nRows nCols : ℕ) (predictionsIn : List ℝ)
    (hn : nRows < sizeTMod) (h1 : 1 ≤ params.length)
    (h2 : params.length < sizeTMod) :
    (predictChecked params points nRows nCols predictionsIn = none ↔
      nRows ≠ params.length - 1) ∧
    (nRows = params.length - 1 →
      predictChecked params points nRows nCols predictionsIn =
        some (predictRun (fun i => params.getD i 0) points nRows nCols
          predictionsIn)) := by
  have hmod : (params.length + sizeTMod - 1) % sizeTMod = params.length - 1 := by
    have hsplit : params.length + sizeTMod - 1 = (params.length - 1) + sizeTMod := by
      omega
    rw [hsplit, Nat.add_mod_right, Nat.mod_eq_of_lt (by omega)]
  have hnr : nRows % sizeTMod = nRows := Nat.mod_eq_of_lt hn
  have hcond : (nRows % sizeTMod =
      (params.length + sizeTMod - 1) % sizeTMod) ↔
      nRows = params.length - 1 := by
    rw [hmod, hnr]
  constructor
  · constructor
    · intro hnone heq
      rw [predictChecked, if_pos (hcond.mpr heq)] at hnone
      exact Option.noConfusion hnone
    · intro hne
      rw [predictChecked, if_neg (fun hc => hne (hcond.mp hc))]
  · intro heq
    rw [predictChecked, if_pos (hcond.mpr heq)]

/-- Witness for C4 at a concrete input: two parameters and one feature
dimension match, so predict does not abort. -/
theorem predict_assert_iff_witness :
    predictChecked [(1 : ℝ), 2] (fun _ _ => 0) 1 1 [] =
      some (predictRun (fun i => [(1 : ℝ), 2].getD i 0) (fun _ _ => 0) 1 1
        []) :=
  (predict_assert_iff [(1 : ℝ), 2] (fun _ _ => 0) 1 1 [] (by decide)
    (by decide) (by decide)).2 (by decide)

/-- State of a LinearRegression object: its fitted parameter vector. -/
structure LinearRegression where
  parameters : List ℝ

/-- Parameter vector stored by the fit constructor: arma::solve resizes
the output to the column count of R, which is D + 1 for the augmented
design matrix, and beta is the solution vector of the triangular solve. -/
def fitLR {D : ℕ} (beta : Fin (D + 1) → ℝ) : LinearRegression :=
  { parameters := List.ofFn beta }

/-- Model of the file system seen by the persistence routines: a map from
filename to the flat numeric sequence stored there, if any. -/
def Store : Type := String → Option (List ℝ)

/-- Modelled from the spec: data::Save (mlpack core code outside this
component) serialises the vector as a flat numeric sequence to the named
destination and returns its own success/failure boolean; the ioOk flag is
the environment deciding whether the underlying file I/O succeeds, and a
failed save leaves the store unchanged. -/
def dataSave (ioOk : Bool) (st : Store) (filename : String)
    (v : List ℝ) : Bool × Store :=
  if ioOk then
    (true, fun n => if n = filename then some v else st n)
  else
    (false, st)

/-- Modelled from the spec: data::Load (mlpack core code outside this
component) reads a flat numeric sequence from the named source, returning
its success/failure boolean; a missing file or failed I/O yields false and
leaves the target vector empty. -/
def dataLoad (ioOk : Bool) (st : Store) (filename : String) :
    Bool × List ℝ :=
  if ioOk then
    match st filename with
    | some v => (true, v)
    | none => (false, [])
  else
    (false, [])

/-- Modelled from the spec: the vector load routine of the linear-algebra
library, used by the file-path constructor via parameters.load(filename);
it returns a success boolean and leaves the vector empty on failure. -/
def armaVecLoad (ioOk : Bool) (st : Store) (filename : String) :
    Bool × List ℝ :=
  dataLoad ioOk st filename

/-- Method predict on the object: the parameter vector is only read, never
assigned, so the returned object is the receiver unchanged. -/
def LinearRegression.predict (lr : LinearRegression)
    (points : ℕ → ℕ → ℝ) (nRows nCols : ℕ) (predictionsIn : List ℝ) :
    LinearRegression × Option (List ℝ) :=
  (lr, predictChecked lr.parameters points nRows nCols predictionsIn)

/-- Method getParameters: returns a copy of the parameter vector, leaving
the object unchanged. -/
def LinearRegression.getParameters (lr : LinearRegression) :
    LinearRegression × List ℝ :=
  (lr, lr.parameters)

/-- Method save: returns data::Save's boolean verbatim; the object is not
modified. -/
def LinearRegression.save (lr : LinearRegression) (ioOk : Bool)
    (st : Store) (filename : String) :
    LinearRegression × Bool × Store :=
  (lr, dataSave ioOk st filename lr.parameters)

/-- Method load: replaces the parameter vector by whatever data::Load
produced and returns data::Load's boolean verbatim. -/
def LinearRegression.load (_lr : LinearRegression) (ioOk : Bool)
    (st : Store) (filename : String) : LinearRegression × Bool :=
  (⟨(dataLoad ioOk st filename).2⟩, (dataLoad ioOk st filename).1)

/-- File-path constructor: parameters.load(filename) with the returned
success boolean discarded; the object is constructed regardless. -/
def LinearRegression.ofFile (ioOk : Bool) (st : Store)
    (filename : String) : LinearRegression :=
  ⟨(armaVecLoad ioOk st filename).2⟩

/-- C5: the fitted parameter vector has length D + 1; index 0 is the
coefficient of the inserted constant-one feature (column 0 of the design
matrix is all ones) and index k + 1 the coefficient of feature k (column
k + 1 of the design matrix is feature k); and predict, getParameters and
save all leave the parameter vector unchanged. -/
theorem parameters_shape_and_immutable {D N : ℕ} (beta : Fin (D + 1) → ℝ)
    (predictors : Matrix (Fin D) (Fin N) ℝ) (points : ℕ → ℕ → ℝ)
    (nRows nCols : ℕ) (predictionsIn : List ℝ) (ioOk : Bool) (st : Store)
    (filename : String) :
    (fitLR beta).parameters.length = D + 1 ∧
    (∀ j : Fin N, designMatrix predictors j 0 = 1) ∧
    (∀ j : Fin N, ∀ k : Fin D,
      designMatrix predictors j k.succ = predictors k j) ∧
    ((fitLR beta).predict points nRows nCols predictionsIn).1.parameters =
      (fitLR beta).parameters ∧
    ((fitLR beta).getParameters).1.parameters = (fitLR beta).parameters ∧
    ((fitLR beta).getParameters).2 = (fitLR beta).parameters ∧
    ((fitLR beta).save ioOk st filename).1.parameters =
      (fitLR beta).parameters := by
  refine ⟨?_, ?_, ?_, rfl, rfl, rfl, rfl⟩
  · simp [fitLR]
  · intro j
    simp [designMatrix, insertRows0, onesRow]
  · intro j k
    simp [designMatrix, insertRows0]

/-- C6: saving the parameter vector to a destination and loading from that
same destination yields the original parameter vector, and the load
reports success. -/
theorem save_load_roundtrip (lr lr2 : LinearRegression) (st : Store)
    (filename : String) :
    ((lr2.load true ((lr.save true st filename).2.2) filename).1.parameters
      = lr.parameters) ∧
    (lr2.load true ((lr.save true st filename).2.2) filename).2 = true := by
  constructor <;>
    simp [LinearRegression.load, LinearRegression.save, dataSave, dataLoad]

/-- C7: save and load return the underlying storage routine's boolean
verbatim: an I/O failure or a missing file is surfaced as a false return
value, success as true, and nothing else is reported. -/
theorem save_load_report_bool (lr : LinearRegression) (st : Store)
    (filename : String) (ioOk : Bool) :
    ((lr.save ioOk st filename).2.1 =
      (dataSave ioOk st filename lr.parameters).1) ∧
    ((lr.load ioOk st filename).2 = (dataLoad ioOk st filename).1) ∧
    ((lr.save false st filename).2.1 = false) ∧
    ((lr.load false st filename).2 = false) ∧
    ((lr.save true st filename).2.1 = true) ∧
    (st filename = none → (lr.load true st filename).2 = false) ∧
    (∀ v : List ℝ, st filename = some v →
      (lr.load true st filename).2 = true ∧
      (lr.load true st filename).1.parameters = v) := by
  refine ⟨rfl, rfl, rfl, rfl, ?_, ?_, ?_⟩
  · simp [LinearRegression.save, dataSave]
  · intro h
    simp [LinearRegression.load, dataLoad, h]
  · intro v h
    simp [LinearRegression.load, dataLoad, h]

/-- Witness for C7 at a concrete input: loading from an empty store
reports false. -/
theorem save_load_report_bool_witness :
    ((⟨[(1 : ℝ)]⟩ : LinearRegression).load true (fun _ => none) "f").2 =
      false :=
  (save_load_report_bool ⟨[(1 : ℝ)]⟩ (fun _ => none) "f" true).2.2.2.2.2.1
    rfl

/-- C8: predict is deterministic: a second call with the same points
matrix, on the object returned by a first call, produces the same
prediction vector as the first call. -/
theorem predict_deterministic (lr : LinearRegression)
    (points : ℕ → ℕ → ℝ) (nRows nCols : ℕ)
    (predictionsIn1 predictionsIn2 : List ℝ) :
    ((lr.predict points nRows nCols predictionsIn1).1.predict points nRows
      nCols predictionsIn2).2 =
      (lr.predict points nRows nCols predictionsIn1).2 :=
  rfl

/-- C9: the file-path constructor discards the success flag of the load:
on I/O failure or a missing file the object is still constructed, with an
empty parameter vector and no error indication, whereas the load method
returns false in the same situations. -/
theorem ofFile_discards_failure (st : Store) (filename : String)
    (lr : LinearRegression) :
    (LinearRegression.ofFile false st filename).parameters = [] ∧
    (st filename = none →
      (LinearRegression.ofFile true st filename).parameters = []) ∧
    (lr.load false st filename).2 = false ∧
    (st filename = none → (lr.load true st filename).2 = false) := by
  refine ⟨rfl, ?_, rfl, ?_⟩
  · intro h
    simp [LinearRegression.ofFile, armaVecLoad, dataLoad, h]
  · intro h
    simp [LinearRegression.load, dataLoad, h]

/-- Witness for C9 at a concrete input: constructing from an empty store
yields an object with an empty parameter vector. -/
theorem ofFile_discards_failure_witness :
    (LinearRegression.ofFile true (fun _ => none) "f").parameters = [] :=
  (ofFile_discards_failure (fun _ => none) "f" ⟨[]⟩).2.1 rfl

end LinReg
